import Mathlib

/-!
Verification of the AST-derived model/endpoint extraction and diffing engine
of the my-tiny-toolset repository.

The Python sources embedded here are `TOOLSET/version_tracker.py`
(model/endpoint extraction, structural fingerprinting, snapshot diffing),
`TOOLSET/validation-tools/drift_detector.py` (drift score and exit codes) and
`tools/code_analyzer.py` (model/function extraction and request/response
mapping detection).

Python dictionaries are embedded as association lists built by `dictOf`
(insertion order preserved, later bindings overwrite in place, keys unique);
the MD5 digest used by the fingerprinter is an external library call and is
abstracted as an arbitrary `digest : String → String` argument, applied to
the same canonical JSON serialization the source builds.  Machine-level
concerns (file I/O, subprocess git calls, printing) are outside the
embedding; functions below model the data transformations.
-/

namespace TinyToolset

/-! ## Generic helpers: Python dict and list operations -/

/-- Last element of a list, if any (used to express "later assignments win"). -/
def lastOpt {α : Type} : List α → Option α
  | [] => none
  | [a] => some a
  | _ :: b :: l => lastOpt (b :: l)

/-- Association-list lookup with decidable string keys (first binding wins;
`dictOf` keeps keys unique so this is Python `d[k]` / `d.get(k)`). -/
def lookupD {α : Type} (k : String) : List (String × α) → Option α
  | [] => none
  | (k2, v) :: rest => if k = k2 then some v else lookupD k rest

/-- Python `d[k] = v`: overwrite the existing binding in place, else append. -/
def dictInsert {α : Type} (k : String) (v : α) : List (String × α) → List (String × α)
  | [] => [(k, v)]
  | (k2, v2) :: rest => if k = k2 then (k, v) :: rest else (k2, v2) :: dictInsert k v rest

/-- Python dict comprehension `{key(x): x for x in l}`. -/
def dictOf {α : Type} (key : α → String) (l : List α) : List (String × α) :=
  l.foldl (fun d x => dictInsert (key x) x d) []

/-- Bool-valued list prefix test on characters. -/
def charListPrefixB : List Char → List Char → Bool
  | [], _ => true
  | _ :: _, [] => false
  | a :: as, b :: bs => a == b && charListPrefixB as bs

/-- Bool-valued infix (substring) test on characters. -/
def charListInfixB (needle : List Char) : List Char → Bool
  | [] => needle.isEmpty
  | b :: rest => charListPrefixB needle (b :: rest) || charListInfixB needle rest

/-- Python `needle in hay` on strings (substring containment). -/
def containsSub (hay needle : String) : Bool :=
  charListInfixB needle.toList hay.toList

/-- Python `sorted` on a list of strings. -/
def sortedStrings (l : List String) : List String :=
  List.insertionSort (· ≤ ·) l

/-- ASCII upper-casing of one character (`str.upper` on the identifiers the
tools read). -/
def charUpper (c : Char) : Char :=
  if 97 ≤ c.toNat ∧ c.toNat ≤ 122 then Char.ofNat (c.toNat - 32) else c

/-- ASCII lower-casing of one character. -/
def charLower (c : Char) : Char :=
  if 65 ≤ c.toNat ∧ c.toNat ≤ 90 then Char.ofNat (c.toNat + 32) else c

/-- Python `s.upper()`. -/
def strUpper (s : String) : String := List.asString (s.toList.map charUpper)

/-- Python `s.lower()`. -/
def strLower (s : String) : String := List.asString (s.toList.map charLower)

/-! ## Canonical JSON serialization (`json.dumps(..., sort_keys=True)`)
for the fixed three-key structure the fingerprinter hashes. -/

/-- Lower-case hexadecimal digit. -/
def hexDigit (n : Nat) : Char :=
  if n < 10 then Char.ofNat (48 + n) else Char.ofNat (87 + n)

/-- Four hexadecimal digits. -/
def hex4 (n : Nat) : String :=
  List.asString [hexDigit (n / 4096 % 16), hexDigit (n / 256 % 16),
                 hexDigit (n / 16 % 16), hexDigit (n % 16)]

/-- JSON escaping of one character, following `json.dumps` defaults
(`ensure_ascii=True`: control characters and non-ASCII are escaped). -/
def jsonEscapeChar (c : Char) : String :=
  if c = '"' then "\\\""
  else if c = '\\' then "\\\\"
  else if c = '\n' then "\\n"
  else if c = '\t' then "\\t"
  else if c = '\r' then "\\r"
  else if c.toNat = 8 then "\\b"
  else if c.toNat = 12 then "\\f"
  else if c.toNat < 32 then "\\u" ++ hex4 c.toNat
  else if c.toNat < 128 then List.asString [c]
  else if c.toNat < 65536 then "\\u" ++ hex4 c.toNat
  else
    let v := c.toNat - 65536
    "\\u" ++ hex4 (55296 + v / 1024) ++ "\\u" ++ hex4 (56320 + v % 1024)

/-- JSON string literal. -/
def jsonString (s : String) : String :=
  "\"" ++ String.join (s.toList.map jsonEscapeChar) ++ "\""

/-- JSON array of strings with `json.dumps` default separators. -/
def jsonList (elts : List String) : String :=
  "[" ++ String.intercalate ", " (elts.map jsonString) ++ "]"

/-! ## version_tracker.py: data model -/

/-- `FieldInfo` dataclass of version_tracker.py. -/
structure FieldInfo where
  name : String
  type : String
  default : Option String
  required : Bool
  description : Option String
  deriving DecidableEq

/-- Field construction in `_parse_model`: `required` is set exactly when the
annotated assignment has no default initializer; `description` is always left
empty by the source. -/
def mk_field (name type : String) (default : Option String) : FieldInfo :=
  { name := name, type := type, default := default,
    required := default.isNone, description := none }

/-- `ModelVersion` dataclass (the DeclaredRecord of the spec).  Git metadata
(`git_commit`, `git_author`, `last_modified`), the project `version` string and
`used_in_endpoints` are pass-through data never read by the diffing logic;
they are omitted. -/
structure ModelVersion where
  name : String
  file_path : String
  line_number : Nat
  module : String
  base_classes : List String
  fields : List FieldInfo
  docstring : Option String
  is_pydantic : Bool
  /-- `is_dataclass` in the source. -/
  is_dc : Bool
  hash : String
  deriving DecidableEq

/-- The canonical structure serialized in `_parse_model`:
`json.dumps({"name": ..., "bases": sorted(...), "fields": sorted(...)}, sort_keys=True)`
(keys emitted in sorted order: bases, fields, name). -/
def model_structure_json (name : String) (bases : List String) (fields : List FieldInfo) : String :=
  "\x7b\"bases\": " ++ jsonList (sortedStrings bases)
    ++ ", \"fields\": " ++ jsonList (sortedStrings (fields.map fun f => f.name ++ ":" ++ f.type))
    ++ ", \"name\": " ++ jsonString name ++ "\x7d"

/-- Python string slicing `s[:n]` (by characters). -/
def truncateChars (n : Nat) (s : String) : String :=
  List.asString (s.toList.take n)

/-- `hashlib.md5(json.dumps(model_structure, sort_keys=True).encode()).hexdigest()[:8]`,
with the MD5 hexdigest abstracted as `digest`. -/
def model_hash (digest : String → String) (name : String) (bases : List String)
    (fields : List FieldInfo) : String :=
  truncateChars 8 (digest (model_structure_json name bases fields))

/-! ## Embedded Python AST fragment -/

/-- Python literal constants (`ast.Constant` values) that the tools read. -/
inductive PyConst where
  | str (s : String)
  | int (n : Int)
  | bool (b : Bool)
  | pynone
  deriving DecidableEq

/-- Python truthiness of a constant (`x or y`, `if x:`). -/
def PyConst.truthy : PyConst → Bool
  | .str s => s != ""
  | .int n => n != 0
  | .bool b => b
  | .pynone => false

/-- A positional argument expression in a decorator call: the source only
distinguishes `ast.Constant` from everything else. -/
inductive ArgExpr where
  | const (c : PyConst)
  | nonconst
  deriving DecidableEq

/-- The constant carried by an argument expression, if any. -/
def constOf : ArgExpr → Option PyConst
  | .const c => some c
  | .nonconst => none

/-- A keyword-argument value: the source distinguishes `ast.List` (for `tags`)
and `ast.Constant` (for `deprecated`) from everything else. -/
inductive KwVal where
  | const (c : PyConst)
  | list (elts : List ArgExpr)
  | otherKw
  deriving DecidableEq

/-- `ast.keyword`: `arg` is `none` for `**kwargs`. -/
structure Kw where
  arg : Option String
  value : KwVal
  deriving DecidableEq

/-- A decorator expression.  `call fn args kws` stands for `ast.Call` where
`fn` is the result of `_get_decorator_name` on the callee (`ast.Name` id,
dotted `ast.Attribute` name, or `""` for anything else). -/
inductive DecoratorExpr where
  | name (id : String)
  | call (fn : String) (args : List ArgExpr) (keywords : List Kw)
  | attr (dotted : String)
  | other
  deriving DecidableEq

/-- `_get_decorator_name` of version_tracker.py. -/
def decorator_name : DecoratorExpr → String
  | .name id => id
  | .call fn _ _ => fn
  | .attr dotted => dotted
  | .other => ""

/-- A base-class expression: the source reads `ast.Name` ids and dotted
`ast.Attribute` names and skips every other base expression. -/
inductive BaseExpr where
  | nm (id : String)
  | attrib (dotted : String)
  | complexBase
  deriving DecidableEq

/-- A class-body statement: the source reads annotated assignments whose
target is a plain name (`ast.AnnAssign` with `ast.Name` target); annotation
and default are carried as their `ast.unparse` text. -/
inductive BodyItem where
  | annAssignName (target : String) (ty : String) (value : Option String)
  | otherItem
  deriving DecidableEq

/-- `ast.ClassDef` as read by the tools (docstring via `ast.get_docstring`). -/
structure ClassDef where
  name : String
  bases : List BaseExpr
  decorator_list : List DecoratorExpr
  body : List BodyItem
  docstring : Option String
  lineno : Nat
  deriving DecidableEq

/-- A function parameter (`ast.arg`); `annot` carries the unparsed annotation
text, if an annotation is present. -/
structure Arg where
  arg : String
  annot : Option String
  deriving DecidableEq

/-- `ast.FunctionDef` / `ast.AsyncFunctionDef` as read by the tools. -/
structure FunctionDef where
  name : String
  decorator_list : List DecoratorExpr
  args : List Arg
  returns : Option String
  docstring : Option String
  lineno : Nat
  is_async : Bool
  deriving DecidableEq

/-! ## version_tracker.py: model extraction -/

/-- Base-class name extraction at the top of `_parse_model`. -/
def base_names (bases : List BaseExpr) : List String :=
  bases.filterMap fun b =>
    match b with
    | .nm id => some id
    | .attrib dotted => some dotted
    | .complexBase => none

/-- Field extraction in `_parse_model`. -/
def fields_of (body : List BodyItem) : List FieldInfo :=
  body.filterMap fun item =>
    match item with
    | .annAssignName target ty value => some (mk_field target ty value)
    | .otherItem => none

/-- Module path derived from the file path in `_parse_model`. -/
def module_of (file_path : String) : String :=
  ((file_path.replace "\\" ".").replace "/" ".").replace ".py" ""

/-- `_parse_model` of version_tracker.py: a class is kept iff some base name
contains `"BaseModel"` or some decorator is named `dataclass`. -/
def parse_model (digest : String → String) (file_path : String) (node : ClassDef) :
    Option ModelVersion :=
  let base_classes := base_names node.bases
  let is_pydantic := base_classes.any fun b => containsSub b "BaseModel"
  let decorators := node.decorator_list.map decorator_name
  let is_dc := decorators.contains "dataclass"
  if is_pydantic || is_dc then
    let fields := fields_of node.body
    some { name := node.name
           file_path := file_path
           line_number := node.lineno
           module := module_of file_path
           base_classes := base_classes
           fields := fields
           docstring := node.docstring
           is_pydantic := is_pydantic
           is_dc := is_dc
           hash := model_hash digest node.name base_classes fields }
  else
    none

/-! ## version_tracker.py: endpoint extraction -/

/-- `EndpointVersion` dataclass.  `path` and `deprecated` hold whatever
constant the decorator supplied (Python is dynamically typed there), so they
are `PyConst`-valued. -/
structure EndpointVersion where
  path : PyConst
  method : String
  function_name : String
  file_path : String
  line_number : Nat
  request_model : Option String
  response_model : Option String
  tags : List PyConst
  summary : Option String
  description : Option String
  deprecated : PyConst
  version : String
  deriving DecidableEq

/-- The HTTP-verb decorator names matched by `_parse_endpoint`. -/
def httpVerbs : List String :=
  ["get", "post", "put", "patch", "delete", "options", "head"]

/-- The mutable locals of the decorator loop in `_parse_endpoint`. -/
structure EpState where
  http_method : Option String
  endpoint_path : Option PyConst
  tags : List PyConst
  deprecated : PyConst
  deriving DecidableEq

/-- One iteration of the keyword loop in `_parse_endpoint`:
`tags` from a literal-list `tags=` keyword, `deprecated` from a literal
`deprecated=` keyword. -/
def kw_step (st : EpState) (kw : Kw) : EpState :=
  if kw.arg = some "tags" then
    match kw.value with
    | .list elts => { st with tags := elts.filterMap constOf }
    | _ => st
  else if kw.arg = some "deprecated" then
    match kw.value with
    | .const c => { st with deprecated := c }
    | _ => st
  else st

/-- One iteration of the decorator loop in `_parse_endpoint`: a decorator is
a no-op unless its name is exactly one of `httpVerbs`. -/
def decorator_step (st : EpState) (dec : DecoratorExpr) : EpState :=
  let dec_name := decorator_name dec
  if httpVerbs.contains dec_name then
    let st1 := { st with http_method := some (strUpper dec_name) }
    let st2 :=
      match dec with
      | .call _ (a :: _) _ =>
        match a with
        | .const c => { st1 with endpoint_path := some c }
        | .nonconst => st1
      | _ => st1
    match dec with
    | .call _ _ kws => kws.foldl kw_step st2
    | _ => st2
  else st

/-- `docstring.split("\n", 1)` on the character list. -/
def splitOnceNl : List Char → List Char × Option (List Char)
  | [] => ([], none)
  | c :: rest =>
    if c = '\n' then ([], some rest)
    else
      let p := splitOnceNl rest
      (c :: p.1, p.2)

/-- `_parse_endpoint` of version_tracker.py.  `model_names` is
`self.models.keys()` in dict order at the time of the call. -/
def parse_endpoint (model_names : List String) (project_version : String)
    (file_path : String) (node : FunctionDef) : Option EndpointVersion :=
  let st := node.decorator_list.foldl decorator_step
    { http_method := none, endpoint_path := none, tags := [], deprecated := .bool false }
  match st.http_method with
  | none => none
  | some http_method =>
    let request_model := node.args.foldl (fun acc arg =>
      match arg.annot with
      | none => acc
      | some type_str =>
        match model_names.find? (fun mn => containsSub type_str mn) with
        | some mn => some mn
        | none => acc) none
    let response_model :=
      match node.returns with
      | none => none
      | some type_str => model_names.find? (fun mn => containsSub type_str mn)
    let sd :=
      match node.docstring with
      | none => (none, none)
      | some ds =>
        let p := splitOnceNl ds.toList
        (some (List.asString p.1).trim, p.2.map fun r => (List.asString r).trim)
    some { path := match st.endpoint_path with
             | some v => if v.truthy then v else .str ("/" ++ node.name)
             | none => .str ("/" ++ node.name)
           method := http_method
           function_name := node.name
           file_path := file_path
           line_number := node.lineno
           request_model := request_model
           response_model := response_model
           tags := st.tags
           summary := sd.1
           description := sd.2
           deprecated := st.deprecated
           version := project_version }

/-! ## Spec-side characterizations of the decorator loop (amended claim C4 /
C6); these re-state, as direct list computations, what the imperative loop
assigns: later assignments overwrite earlier ones. -/

/-- The names of the matching (verb-named) decorators, in order. -/
def matched_verbs (decs : List DecoratorExpr) : List String :=
  decs.filterMap fun d =>
    if httpVerbs.contains (decorator_name d) then some (decorator_name d) else none

/-- The path constants assigned by the loop: a matching call decorator whose
first positional argument is a literal constant assigns it. -/
def path_consts (decs : List DecoratorExpr) : List PyConst :=
  decs.filterMap fun d =>
    if httpVerbs.contains (decorator_name d) then
      match d with
      | .call _ (.const c :: _) _ => some c
      | _ => none
    else none

/-- The `tags=` literal-list element lists of one keyword list, in order. -/
def tags_lists (kws : List Kw) : List (List ArgExpr) :=
  kws.filterMap fun kw =>
    if kw.arg = some "tags" then
      match kw.value with
      | .list elts => some elts
      | _ => none
    else none

/-- The `deprecated=` literal constants of one keyword list, in order. -/
def deprecated_consts (kws : List Kw) : List PyConst :=
  kws.filterMap fun kw =>
    if kw.arg = some "deprecated" then
      match kw.value with
      | .const c => some c
      | _ => none
    else none

/-- The tag lists assigned by the decorator loop. -/
def tags_assignments (decs : List DecoratorExpr) : List (List PyConst) :=
  decs.filterMap fun d =>
    if httpVerbs.contains (decorator_name d) then
      match d with
      | .call _ _ kws => (lastOpt (tags_lists kws)).map fun elts => elts.filterMap constOf
      | _ => none
    else none

/-- The deprecated constants assigned by the decorator loop. -/
def deprecated_assignments (decs : List DecoratorExpr) : List PyConst :=
  decs.filterMap fun d =>
    if httpVerbs.contains (decorator_name d) then
      match d with
      | .call _ _ kws => lastOpt (deprecated_consts kws)
      | _ => none
    else none

/-- The path the endpoint record receives (Python `endpoint_path or default`). -/
def spec_path (decs : List DecoratorExpr) (function_name : String) : PyConst :=
  match lastOpt (path_consts decs) with
  | some c => if c.truthy then c else .str ("/" ++ function_name)
  | none => .str ("/" ++ function_name)

/-- The request-model matches of the parameter loop, in parameter order:
per parameter, the first known model name occurring in the annotation text. -/
def request_matches (model_names : List String) (args : List Arg) : List String :=
  args.filterMap fun arg =>
    match arg.annot with
    | none => none
    | some type_str => model_names.find? fun mn => containsSub type_str mn

/-! ## version_tracker.py: snapshot diffing (`compare_with_previous`) -/

/-- One entry of the `breaking_changes` list (a JSON dict in the source;
absent keys are `none`). -/
structure BreakingChange where
  type : String
  model : String
  field : Option String
  old_type : Option String
  new_type : Option String
  severity : String
  deriving DecidableEq

def mk_model_removed (model : String) : BreakingChange :=
  { type := "model_removed", model := model, field := none,
    old_type := none, new_type := none, severity := "high" }

def mk_required_field_added (model fieldName : String) : BreakingChange :=
  { type := "required_field_added", model := model, field := some fieldName,
    old_type := none, new_type := none, severity := "high" }

def mk_field_removed (model fieldName : String) : BreakingChange :=
  { type := "field_removed", model := model, field := some fieldName,
    old_type := none, new_type := none, severity := "high" }

def mk_field_type_changed (model fieldName oldType newType : String) : BreakingChange :=
  { type := "field_type_changed", model := model, field := some fieldName,
    old_type := some oldType, new_type := some newType, severity := "high" }

/-- The `changes` dict built by `compare_with_previous`. -/
structure ChangeSet where
  models_added : List String
  models_removed : List String
  models_modified : List String
  fields_added : List (String × List String)
  fields_removed : List (String × List String)
  fields_modified : List (String × List String)
  breaking_changes : List BreakingChange
  deriving DecidableEq

/-- `{m["name"]: m for m in models}`. -/
def model_dict (models : List ModelVersion) : List (String × ModelVersion) :=
  dictOf ModelVersion.name models

/-- `{f["name"]: f for f in fields}`. -/
def field_dict (fields : List FieldInfo) : List (String × FieldInfo) :=
  dictOf FieldInfo.name fields

/-- The added-models loop. -/
def models_added_of (previous_models current_models : List (String × ModelVersion)) :
    List String :=
  (current_models.filter fun p => (lookupD p.1 previous_models).isNone).map Prod.fst

/-- The removed-models loop. -/
def models_removed_of (previous_models current_models : List (String × ModelVersion)) :
    List String :=
  (previous_models.filter fun p => (lookupD p.1 current_models).isNone).map Prod.fst

/-- The modified-models loop condition: present in both, stored hashes differ.
Yields `(name, current record, previous record)`. -/
def modifiedTriples (previous_models current_models : List (String × ModelVersion)) :
    List (String × ModelVersion × ModelVersion) :=
  current_models.filterMap fun p =>
    match lookupD p.1 previous_models with
    | some prevM => if p.2.hash = prevM.hash then none else some (p.1, p.2, prevM)
    | none => none

/-- Fields present now and absent before (pairs of the current field dict). -/
def added_fields (previous_fields current_fields : List (String × FieldInfo)) :
    List (String × FieldInfo) :=
  current_fields.filter fun p => (lookupD p.1 previous_fields).isNone

/-- Fields present before and absent now (pairs of the previous field dict). -/
def removed_fields (previous_fields current_fields : List (String × FieldInfo)) :
    List (String × FieldInfo) :=
  previous_fields.filter fun p => (lookupD p.1 current_fields).isNone

/-- Fields present in both whose type text changed: `(name, old type, new type)`. -/
def type_changed_fields (previous_fields current_fields : List (String × FieldInfo)) :
    List (String × String × String) :=
  current_fields.filterMap fun p =>
    match lookupD p.1 previous_fields with
    | some pf => if p.2.type = pf.type then none else some (p.1, pf.type, p.2.type)
    | none => none

/-- The breaking changes contributed by one modified record, in source order:
required additions, then removals, then type changes. -/
def modified_breaking (name : String) (cur prevM : ModelVersion) : List BreakingChange :=
  let current_fields := field_dict cur.fields
  let previous_fields := field_dict prevM.fields
  ((added_fields previous_fields current_fields).filter fun p => p.2.required).map
      (fun p => mk_required_field_added name p.1)
    ++ (removed_fields previous_fields current_fields).map (fun p => mk_field_removed name p.1)
    ++ (type_changed_fields previous_fields current_fields).map
      (fun p => mk_field_type_changed name p.1 p.2.1 p.2.2)

/-- `changes["fields_added"]` entry of one modified record (`setdefault` only
creates the entry when at least one field was appended). -/
def fields_added_entry (name : String) (cur prevM : ModelVersion) :
    List (String × List String) :=
  let l := (added_fields (field_dict prevM.fields) (field_dict cur.fields)).map Prod.fst
  if l.isEmpty then [] else [(name, l)]

/-- `changes["fields_removed"]` entry of one modified record. -/
def fields_removed_entry (name : String) (cur prevM : ModelVersion) :
    List (String × List String) :=
  let l := (removed_fields (field_dict prevM.fields) (field_dict cur.fields)).map Prod.fst
  if l.isEmpty then [] else [(name, l)]

/-- `changes["fields_modified"]` entry of one modified record. -/
def fields_modified_entry (name : String) (cur prevM : ModelVersion) :
    List (String × List String) :=
  let l := (type_changed_fields (field_dict prevM.fields) (field_dict cur.fields)).map Prod.fst
  if l.isEmpty then [] else [(name, l)]

/-- `compare_with_previous` of version_tracker.py, on two well-formed
snapshots (the previous one is read back from JSON; records are keyed by
name exactly as `self.models` is). -/
def compare_with_previous (previous current : List ModelVersion) : ChangeSet :=
  let previous_models := model_dict previous
  let current_models := model_dict current
  { models_added := models_added_of previous_models current_models
    models_removed := models_removed_of previous_models current_models
    models_modified := (modifiedTriples previous_models current_models).map (fun t => t.1)
    fields_added := (modifiedTriples previous_models current_models).flatMap
      fun t => fields_added_entry t.1 t.2.1 t.2.2
    fields_removed := (modifiedTriples previous_models current_models).flatMap
      fun t => fields_removed_entry t.1 t.2.1 t.2.2
    fields_modified := (modifiedTriples previous_models current_models).flatMap
      fun t => fields_modified_entry t.1 t.2.1 t.2.2
    breaking_changes := (models_removed_of previous_models current_models).map mk_model_removed
      ++ (modifiedTriples previous_models current_models).flatMap
        fun t => modified_breaking t.1 t.2.1 t.2.2 }

/-! ## drift_detector.py: drift score and exit codes -/

/-- One drift entry (a dict in the source; only its presence is weighed). -/
structure DriftEntry where
  method : String
  deriving DecidableEq

/-- The five-category drift dict returned by `detect_drift`. -/
structure Drift where
  new_methods : List DriftEntry
  deleted_methods : List DriftEntry
  changed_signatures : List DriftEntry
  changed_classification : List DriftEntry
  version_changes : List DriftEntry
  deriving DecidableEq

/-- The score dict returned by `calculate_drift_score`. -/
structure ScoreReport where
  total_changes : Nat
  drift_score : Nat
  severity : String
  requires_update : Bool
  deriving DecidableEq

/-- `calculate_drift_score` of drift_detector.py: weights 1/3/2/1/1 summed in
category order, then bucketed. -/
def calculate_drift_score (d : Drift) : ScoreReport :=
  let score := d.new_methods.length * 1 + d.deleted_methods.length * 3
    + d.changed_signatures.length * 2 + d.changed_classification.length * 1
    + d.version_changes.length * 1
  let total_changes := d.new_methods.length + d.deleted_methods.length
    + d.changed_signatures.length + d.changed_classification.length
    + d.version_changes.length
  let severity :=
    if score = 0 then "none"
    else if score ≤ 3 then "low"
    else if score ≤ 10 then "medium"
    else "high"
  { total_changes := total_changes
    drift_score := score
    severity := severity
    requires_update := decide (total_changes > 0) }

/-- Exit-code behaviour of `main` in drift_detector.py.  `collider_exists`
models `setup_collider_path` (which exits 1 when the sibling application repo
is absent); `inventory` is `none` when the inventory file is missing, in which
case `load_inventory` raises `FileNotFoundError` and the top-level handler
exits 1; otherwise the run reports and exits 1 only under `--ci-mode` with
`requires_update`, else 0.  The drift computed by `detect_drift` is abstracted
as the `drift` argument. -/
def drift_main (collider_exists : Bool) (inventory : Option Unit) (drift : Drift)
    (ci_mode : Bool) : Nat :=
  if !collider_exists then 1
  else
    match inventory with
    | none => 1
    | some _ =>
      if ci_mode && (calculate_drift_score drift).requires_update then 1 else 0

/-! ## code_analyzer.py -/

/-- `ModelInfo` dataclass of code_analyzer.py (fields are name/type/default
dicts there). -/
structure CAField where
  name : String
  type : String
  default : Option String
  deriving DecidableEq

/-- `ModelInfo` dataclass of code_analyzer.py. -/
structure ModelInfo where
  name : String
  file_path : String
  line_number : Nat
  base_classes : List String
  fields : List CAField
  docstring : Option String
  decorators : List String
  is_pydantic : Bool
  /-- `is_dataclass` in the source. -/
  is_dc : Bool
  deriving DecidableEq

/-- `FunctionInfo` dataclass of code_analyzer.py (field `type` of a parameter
dict is carried in `Arg.annot`; `class_name` is never set by the walker). -/
structure FunctionInfo where
  name : String
  file_path : String
  line_number : Nat
  class_name : Option String
  parameters : List Arg
  return_type : Option String
  docstring : Option String
  decorators : List String
  is_async : Bool
  deriving DecidableEq

/-- `RequestResponseMapping` dataclass of code_analyzer.py. -/
structure RequestResponseMapping where
  function_name : String
  file_path : String
  request_models : List String
  response_models : List String
  http_method : Option String
  endpoint : Option PyConst
  deriving DecidableEq

/-- `_extract_model` of code_analyzer.py: every class is recorded, with the
two recognition flags computed independently. -/
def ca_extract_model (file_path : String) (node : ClassDef) : ModelInfo :=
  let base_classes := base_names node.bases
  let decorators := node.decorator_list.map decorator_name
  { name := node.name
    file_path := file_path
    line_number := node.lineno
    base_classes := base_classes
    fields := node.body.filterMap fun item =>
      match item with
      | .annAssignName target ty value => some { name := target, type := ty, default := value }
      | .otherItem => none
    docstring := node.docstring
    decorators := decorators
    is_pydantic := base_classes.any fun b => containsSub b "BaseModel"
    is_dc := decorators.contains "dataclass" }

/-- `_extract_function` of code_analyzer.py (without the mapping detection). -/
def ca_extract_function (file_path : String) (node : FunctionDef) : FunctionInfo :=
  { name := node.name
    file_path := file_path
    line_number := node.lineno
    class_name := none
    parameters := node.args
    return_type := node.returns
    docstring := node.docstring
    decorators := node.decorator_list.map decorator_name
    is_async := node.is_async }

/-- The verb list of `_detect_req_resp_mapping` (no options/head there). -/
def caVerbs : List String := ["get", "post", "put", "patch", "delete"]

/-- `_detect_req_resp_mapping` of code_analyzer.py. -/
def detect_req_resp (file_path : String) (node : FunctionDef) :
    Option RequestResponseMapping :=
  let loop := node.decorator_list.foldl (fun (acc : Option String × Option PyConst) dec =>
    let dec_name := decorator_name dec
    if caVerbs.contains dec_name then
      let acc1 := (some (strUpper dec_name), acc.2)
      match dec with
      | .call _ (.const c :: _) _ => (acc1.1, some c)
      | _ => acc1
    else acc) (none, none)
  let request_models := node.args.filterMap fun p =>
    match p.annot with
    | some t =>
      if t != "" && (containsSub t "Request" || containsSub t "Input" || containsSub t "Body")
      then some t else none
    | none => none
  let response_models :=
    match node.returns with
    | some rt =>
      if containsSub rt "Response" || containsSub rt "Output" then [rt] else []
    | none => []
  if !request_models.isEmpty || !response_models.isEmpty || loop.1.isSome then
    some { function_name := node.name
           file_path := file_path
           request_models := request_models
           response_models := response_models
           http_method := loop.1
           endpoint := loop.2 }
  else none

/-! ## Per-file analysis and the walker (both tools) -/

/-- A parsed module: `ast.walk` class definitions, then function definitions
(version_tracker extracts all models before all endpoints). -/
structure PyModule where
  classes : List ClassDef
  functions : List FunctionDef
  deriving DecidableEq

/-- A source file: either it parses to a module or `ast.parse` raises
(syntax/encoding error). -/
inductive SrcFile where
  | ok (path : String) (m : PyModule)
  | parseError (path : String)
  deriving DecidableEq

/-- Whether a file parses. -/
def SrcFile.parses : SrcFile → Bool
  | .ok _ _ => true
  | .parseError _ => false

/-- The accumulating state of a `VersionTracker` run. -/
structure TrackerState where
  models : List (String × ModelVersion)
  endpoints : List EndpointVersion
  deriving DecidableEq

/-- `_analyze_file` of version_tracker.py: a file that fails to parse is
reported and skipped (the `except` block leaves the state untouched);
otherwise models are extracted into the name-keyed dict, then endpoints are
parsed against the model names known so far. -/
def tracker_analyze_file (digest : String → String) (project_version : String)
    (st : TrackerState) (f : SrcFile) : TrackerState :=
  match f with
  | .parseError _ => st
  | .ok path m =>
    let models := m.classes.foldl (fun d node =>
      match parse_model digest path node with
      | some mv => dictInsert mv.name mv d
      | none => d) st.models
    let endpoints := m.functions.foldl (fun es node =>
      match parse_endpoint (models.map Prod.fst) project_version path node with
      | some ep => es ++ [ep]
      | none => es) st.endpoints
    { models := models, endpoints := endpoints }

/-- The accumulating state of a `CodeAnalyzer` run. -/
structure AnalyzerState where
  models : List ModelInfo
  functions : List FunctionInfo
  mappings : List RequestResponseMapping
  deriving DecidableEq

/-- `analyze_file` of code_analyzer.py: a file that fails to parse is
reported and skipped; otherwise every class and function is recorded. -/
def ca_analyze_file (st : AnalyzerState) (f : SrcFile) : AnalyzerState :=
  match f with
  | .parseError _ => st
  | .ok path m =>
    let st1 := m.classes.foldl (fun s node =>
      { s with models := s.models ++ [ca_extract_model path node] }) st
    m.functions.foldl (fun s node =>
      { s with functions := s.functions ++ [ca_extract_function path node]
               mappings := s.mappings ++
                 (match detect_req_resp path node with
                  | some mp => [mp]
                  | none => []) }) st1

/-! ## Concrete example inputs (used to exercise the theorems on closed data) -/

/-- A small Pydantic-style record with a stored fingerprint. -/
def exModel (nm hashStr : String) (fields : List FieldInfo) : ModelVersion :=
  { name := nm, file_path := "models.py", line_number := 1, module := "models",
    base_classes := ["BaseModel"], fields := fields, docstring := none,
    is_pydantic := true, is_dc := false, hash := hashStr }

def c2_prev : List ModelVersion :=
  [exModel "M" "h1" [mk_field "a" "int" none, mk_field "gone" "str" none]]

def c2_cur : List ModelVersion :=
  [exModel "M" "h2" [mk_field "a" "str" none, mk_field "newreq" "int" none,
    mk_field "newopt" "int" (some "0")]]

def c3_prev : List ModelVersion := [exModel "A" "h1" [], exModel "B" "h1" []]

def c3_cur : List ModelVersion := [exModel "A" "h2" []]

/-- A function decorated `@GET("/ping")` (upper-case decorator name). -/
def c4_fn_upper : FunctionDef :=
  { name := "ping", decorator_list := [.call "GET" [.const (.str "/ping")] []],
    args := [], returns := none, docstring := none, lineno := 1, is_async := false }

/-- A function decorated `@get("")` (falsy literal path argument). -/
def c4_fn_empty_path : FunctionDef :=
  { name := "root", decorator_list := [.call "get" [.const (.str "")] []],
    args := [], returns := none, docstring := none, lineno := 2, is_async := false }

/-- A function decorated `@get(prefix_var, "/y")`: the literal string is the
second positional argument. -/
def c4_fn_second_arg : FunctionDef :=
  { name := "items", decorator_list := [.call "get" [.nonconst, .const (.str "/y")] []],
    args := [], returns := none, docstring := none, lineno := 3, is_async := false }

/-- A function decorated `@get(5)` (non-string literal path argument). -/
def c4_fn_int_path : FunctionDef :=
  { name := "nums", decorator_list := [.call "get" [.const (.int 5)] []],
    args := [], returns := none, docstring := none, lineno := 4, is_async := false }

/-- A function decorated `@get("/old", deprecated="yes")` (non-boolean
literal for `deprecated`). -/
def c4_fn_depr_str : FunctionDef :=
  { name := "old",
    decorator_list := [.call "get" [.const (.str "/old")]
      [{ arg := some "deprecated", value := .const (.str "yes") }]],
    args := [], returns := none, docstring := none, lineno := 5, is_async := false }

/-- A plainly decorated route `@get("/items/{id}")` with no keyword args. -/
def c4_fn_ok : FunctionDef :=
  { name := "read_item",
    decorator_list := [.call "get" [.const (.str "/items/\x7bid\x7d")] []],
    args := [], returns := none, docstring := none, lineno := 10, is_async := false }

/-- A recognized class that is both Pydantic-based and dataclass-decorated. -/
def c5_both : ClassDef :=
  { name := "Rec", bases := [.nm "BaseModel"], decorator_list := [.name "dataclass"],
    body := [.annAssignName "x" "int" none], docstring := none, lineno := 1 }

/-- A class satisfying neither recognition condition. -/
def c5_neither : ClassDef :=
  { name := "Plain", bases := [.nm "object"], decorator_list := [.name "staticthing"],
    body := [], docstring := none, lineno := 2 }

/-- A route whose first parameter is annotated with model `A` and whose second
parameter and return type are annotated with model `B`. -/
def c6_fn : FunctionDef :=
  { name := "combine",
    decorator_list := [.call "post" [.const (.str "/combine")] []],
    args := [{ arg := "x", annot := some "A" }, { arg := "y", annot := some "B" }],
    returns := some "B", docstring := none, lineno := 5, is_async := false }

def c10_digest : String → String := fun s => s

def c10_prev_fields : List FieldInfo := [mk_field "x" "int" none]

def c10_cur_fields : List FieldInfo := [mk_field "x" "int" (some "0")]

/-- Previous snapshot: record `A` with required field `x` (no default). -/
def c10_prev : List ModelVersion :=
  [{ name := "A", file_path := "a.py", line_number := 3, module := "a",
     base_classes := ["BaseModel"], fields := c10_prev_fields,
     docstring := some "old doc", is_pydantic := true, is_dc := false,
     hash := model_hash c10_digest "A" ["BaseModel"] c10_prev_fields }]

/-- Current snapshot: same record shape, but field `x` gained a default (so it
is now optional), the docstring vanished and the file moved. -/
def c10_cur : List ModelVersion :=
  [{ name := "A", file_path := "b.py", line_number := 9, module := "b",
     base_classes := ["BaseModel"], fields := c10_cur_fields,
     docstring := none, is_pydantic := true, is_dc := false,
     hash := model_hash c10_digest "A" ["BaseModel"] c10_cur_fields }]

/-! # Supporting lemmas -/

/-! ## Basic list and string facts -/

theorem lastOpt_cons {α : Type} (b : α) (l : List α) :
    lastOpt (b :: l) = some ((lastOpt l).getD b) := by
  induction l generalizing b with
  | nil => rfl
  | cons c l ih => rw [lastOpt, ih c]; rfl

theorem lastOpt_map {α β : Type} (f : α → β) (l : List α) :
    lastOpt (l.map f) = (lastOpt l).map f := by
  induction l with
  | nil => rfl
  | cons a l ih =>
    simp only [List.map_cons, lastOpt_cons, ih]
    cases lastOpt l <;> rfl

theorem lastOpt_isSome {α : Type} (l : List α) : (lastOpt l).isSome = !l.isEmpty := by
  cases l with
  | nil => rfl
  | cons a l => simp [lastOpt_cons]

theorem length_asString (l : List Char) : (List.asString l).length = l.length := rfl

theorem length_toList (s : String) : s.toList.length = s.length := rfl

theorem truncateChars_length (n : Nat) (s : String) (h : n ≤ s.length) :
    (truncateChars n s).length = n := by
  rw [truncateChars, length_asString, List.length_take, length_toList]
  exact min_eq_left h

/-! ## Sorting is permutation-invariant, hence the fingerprint is
declaration-order independent -/

theorem sortedStrings_perm_eq {l₁ l₂ : List String} (h : l₁.Perm l₂) :
    sortedStrings l₁ = sortedStrings l₂ :=
  List.eq_of_perm_of_sorted
    ((List.perm_insertionSort _ l₁).trans (h.trans (List.perm_insertionSort _ l₂).symm))
    (List.sorted_insertionSort _ l₁) (List.sorted_insertionSort _ l₂)

theorem field_strings_eq_pairs (fields : List FieldInfo) :
    fields.map (fun f => f.name ++ ":" ++ f.type)
      = (fields.map fun f => (f.name, f.type)).map (fun p => p.1 ++ ":" ++ p.2) := by
  rw [List.map_map]; rfl

theorem model_structure_json_congr (name : String) {b₁ b₂ : List String}
    {f₁ f₂ : List FieldInfo} (hb : b₁.Perm b₂)
    (hf : (f₁.map fun f => (f.name, f.type)).Perm (f₂.map fun f => (f.name, f.type))) :
    model_structure_json name b₁ f₁ = model_structure_json name b₂ f₂ := by
  unfold model_structure_json
  rw [sortedStrings_perm_eq hb, field_strings_eq_pairs f₁, field_strings_eq_pairs f₂,
    sortedStrings_perm_eq (hf.map _)]

theorem model_hash_congr (digest : String → String) (name : String) {b₁ b₂ : List String}
    {f₁ f₂ : List FieldInfo} (hb : b₁.Perm b₂)
    (hf : (f₁.map fun f => (f.name, f.type)).Perm (f₂.map fun f => (f.name, f.type))) :
    model_hash digest name b₁ f₁ = model_hash digest name b₂ f₂ := by
  unfold model_hash
  rw [model_structure_json_congr name hb hf]

/-! ## Dict (association list) facts -/

theorem lookupD_mem {α : Type} {d : List (String × α)} {k : String} {v : α}
    (h : lookupD k d = some v) : (k, v) ∈ d := by
  induction d with
  | nil => simp [lookupD] at h
  | cons p rest ih =>
    obtain ⟨k2, v2⟩ := p
    rw [lookupD] at h
    split at h
    · obtain ⟨rfl⟩ := h
      simp_all
    · exact List.mem_cons_of_mem _ (ih h)

theorem lookupD_isSome_iff {α : Type} {d : List (String × α)} {k : String} :
    (lookupD k d).isSome ↔ k ∈ d.map Prod.fst := by
  induction d with
  | nil => simp [lookupD]
  | cons p rest ih =>
    obtain ⟨k2, v2⟩ := p
    rw [lookupD]
    by_cases h : k = k2 <;> simp [h, ih]

theorem lookupD_eq_of_mem {α : Type} {d : List (String × α)} {k : String} {v : α}
    (hnd : (d.map Prod.fst).Nodup) (h : (k, v) ∈ d) : lookupD k d = some v := by
  induction d with
  | nil => simp at h
  | cons p rest ih =>
    obtain ⟨k2, v2⟩ := p
    simp only [List.map_cons, List.nodup_cons] at hnd
    rcases List.mem_cons.mp h with h1 | h1
    · obtain ⟨rfl, rfl⟩ := Prod.mk.injEq .. ▸ h1
      simp [lookupD]
    · have hk : k ≠ k2 := by
        rintro rfl
        exact hnd.1 (List.mem_map.mpr ⟨(k, v), h1, rfl⟩)
      rw [lookupD, if_neg hk]
      exact ih hnd.2 h1

theorem mem_dictInsert {α : Type} {k : String} {v : α} {d : List (String × α)}
    {p : String × α} (h : p ∈ dictInsert k v d) : p = (k, v) ∨ p ∈ d := by
  induction d with
  | nil => simp [dictInsert] at h; simp [h]
  | cons q rest ih =>
    obtain ⟨k2, v2⟩ := q
    rw [dictInsert] at h
    split at h
    · rcases List.mem_cons.mp h with h1 | h1
      · exact Or.inl h1
      · exact Or.inr (List.mem_cons_of_mem _ h1)
    · rcases List.mem_cons.mp h with h1 | h1
      · exact Or.inr (h1 ▸ List.mem_cons_self _ _)
      · rcases ih h1 with h2 | h2
        · exact Or.inl h2
        · exact Or.inr (List.mem_cons_of_mem _ h2)

theorem keys_dictInsert {α : Type} (k : String) (v : α) (d : List (String × α)) :
    (dictInsert k v d).map Prod.fst
      = if k ∈ d.map Prod.fst then d.map Prod.fst else d.map Prod.fst ++ [k] := by
  induction d with
  | nil => simp [dictInsert]
  | cons q rest ih =>
    obtain ⟨k2, v2⟩ := q
    by_cases h : k = k2
    · subst h; simp [dictInsert]
    · rw [dictInsert, if_neg h]
      simp only [List.map_cons, List.mem_cons, h, false_or]
      rw [ih]
      by_cases h2 : k ∈ rest.map Prod.fst <;> simp [h2]

theorem nodup_keys_dictInsert {α : Type} {k : String} {v : α} {d : List (String × α)}
    (hnd : (d.map Prod.fst).Nodup) : ((dictInsert k v d).map Prod.fst).Nodup := by
  rw [keys_dictInsert]
  split
  · exact hnd
  · next h => simp [List.nodup_append, hnd, h]

theorem dictOf_aux {α : Type} (key : α → String) (l : List α) :
    ∀ d : List (String × α), (d.map Prod.fst).Nodup →
      (((l.foldl (fun d x => dictInsert (key x) x d) d).map Prod.fst).Nodup
        ∧ ∀ p ∈ l.foldl (fun d x => dictInsert (key x) x d) d,
            p ∈ d ∨ (p.1 = key p.2 ∧ p.2 ∈ l)) := by
  induction l with
  | nil => intro d hd; exact ⟨hd, fun p hp => Or.inl hp⟩
  | cons x xs ih =>
    intro d hd
    have h1 := ih (dictInsert (key x) x d) (nodup_keys_dictInsert hd)
    refine ⟨h1.1, fun p hp => ?_⟩
    rcases h1.2 p hp with h2 | h2
    · rcases mem_dictInsert h2 with h3 | h3
      · subst h3; exact Or.inr ⟨rfl, List.mem_cons_self _ _⟩
      · exact Or.inl h3
    · exact Or.inr ⟨h2.1, List.mem_cons_of_mem _ h2.2⟩

theorem dictOf_keys_nodup {α : Type} (key : α → String) (l : List α) :
    ((dictOf key l).map Prod.fst).Nodup :=
  (dictOf_aux key l [] (by simp)).1

theorem mem_dictOf {α : Type} {key : α → String} {l : List α} {p : String × α}
    (h : p ∈ dictOf key l) : p.1 = key p.2 ∧ p.2 ∈ l := by
  rcases (dictOf_aux key l [] (by simp)).2 p h with h1 | h1
  · simp at h1
  · exact h1

theorem lookupD_dictOf_of_mem {α : Type} {key : α → String} {l : List α}
    {k : String} {v : α} (h : (k, v) ∈ dictOf key l) : lookupD k (dictOf key l) = some v :=
  lookupD_eq_of_mem (dictOf_keys_nodup key l) h

/-! # Claim theorems (C1, C5, C7, C8, C9) -/

/-- Claim C1: for every extracted data record, the fingerprint is an
8-character digest determined only by the record name, the sorted base-type
names and the sorted `"fieldname:type"` strings; two records with the same
name and the same base names and (field name, type text) pairs (up to order)
fingerprint identically regardless of field declaration order.  Stated for
any digest whose output has at least the 8 characters the source truncates to
(the MD5 hexdigest has 32). -/
theorem fingerprint_shape_determined (digest : String → String)
    (hlen : ∀ s, 8 ≤ (digest s).length)
    (name : String) (bases₁ bases₂ : List String) (fields₁ fields₂ : List FieldInfo)
    (hb : bases₁.Perm bases₂)
    (hf : (fields₁.map fun f => (f.name, f.type)).Perm (fields₂.map fun f => (f.name, f.type))) :
    (model_hash digest name bases₁ fields₁).length = 8
    ∧ model_hash digest name bases₁ fields₁ = model_hash digest name bases₂ fields₂ :=
  ⟨truncateChars_length 8 _ (hlen _), model_hash_congr digest name hb hf⟩

/-- Claim C5: a class declaration is extracted as a record exactly when some
extracted base-type name contains the substring `"BaseModel"` or some
decorator is named `dataclass`; the two flags are computed independently from
those two conditions (so a class can satisfy both). -/
theorem record_recognition (digest : String → String) (fp : String) (node : ClassDef) :
    ((parse_model digest fp node).isSome
      = ((base_names node.bases).any (fun b => containsSub b "BaseModel")
          || (node.decorator_list.map decorator_name).contains "dataclass"))
    ∧ (∀ m, parse_model digest fp node = some m →
        m.is_pydantic = (base_names node.bases).any (fun b => containsSub b "BaseModel")
        ∧ m.is_dc = (node.decorator_list.map decorator_name).contains "dataclass") := by
  constructor
  · cases h : ((base_names node.bases).any (fun b => containsSub b "BaseModel")
        || (node.decorator_list.map decorator_name).contains "dataclass") <;>
      simp only [parse_model, h, if_true, if_false, Option.isSome_some, Option.isSome_none] <;>
      rfl
  · intro m hm
    simp only [parse_model] at hm
    split at hm
    · cases hm
      exact ⟨rfl, rfl⟩
    · cases hm

/-- The severity bucketing of `calculate_drift_score`, over an arbitrary score. -/
theorem severity_bucket (score : Nat) :
    (((if score = 0 then "none"
        else if score ≤ 3 then "low"
        else if score ≤ 10 then "medium" else "high") = "none") ↔ score = 0)
    ∧ (((if score = 0 then "none"
        else if score ≤ 3 then "low"
        else if score ≤ 10 then "medium" else "high") = "low") ↔ 1 ≤ score ∧ score ≤ 3)
    ∧ (((if score = 0 then "none"
        else if score ≤ 3 then "low"
        else if score ≤ 10 then "medium" else "high") = "medium") ↔ 4 ≤ score ∧ score ≤ 10)
    ∧ (((if score = 0 then "none"
        else if score ≤ 3 then "low"
        else if score ≤ 10 then "medium" else "high") = "high") ↔ 10 < score) := by
  refine ⟨?_, ?_, ?_, ?_⟩ <;> (split_ifs with h1 h2 h3 <;> simp_all <;> omega)

/-- Claim C7: the drift score is the weighted sum 1·new + 3·deleted +
2·changed-signature + 1·changed-classification + 1·version-change; severity is
"none" iff the score is 0, "low" for 1–3, "medium" for 4–10, "high" above 10;
and adding one deleted-method entry raises the score by exactly 3. -/
theorem drift_score_weights_and_buckets (d : Drift) (x : DriftEntry) :
    ((calculate_drift_score d).drift_score
        = 1 * d.new_methods.length + 3 * d.deleted_methods.length
          + 2 * d.changed_signatures.length + 1 * d.changed_classification.length
          + 1 * d.version_changes.length)
    ∧ ((calculate_drift_score d).severity = "none"
        ↔ (calculate_drift_score d).drift_score = 0)
    ∧ ((calculate_drift_score d).severity = "low"
        ↔ 1 ≤ (calculate_drift_score d).drift_score ∧ (calculate_drift_score d).drift_score ≤ 3)
    ∧ ((calculate_drift_score d).severity = "medium"
        ↔ 4 ≤ (calculate_drift_score d).drift_score ∧ (calculate_drift_score d).drift_score ≤ 10)
    ∧ ((calculate_drift_score d).severity = "high"
        ↔ 10 < (calculate_drift_score d).drift_score)
    ∧ (calculate_drift_score { d with deleted_methods := x :: d.deleted_methods }).drift_score
        = (calculate_drift_score d).drift_score + 3 := by
  have hb := severity_bucket ((calculate_drift_score d).drift_score)
  refine ⟨?_, hb.1, hb.2.1, hb.2.2.1, hb.2.2.2, ?_⟩
  · show d.new_methods.length * 1 + d.deleted_methods.length * 3
      + d.changed_signatures.length * 2 + d.changed_classification.length * 1
      + d.version_changes.length * 1 = _
    ring
  · show d.new_methods.length * 1 + (x :: d.deleted_methods).length * 3
      + d.changed_signatures.length * 2 + d.changed_classification.length * 1
      + d.version_changes.length * 1 = _
    simp only [List.length_cons]
    show _ = d.new_methods.length * 1 + d.deleted_methods.length * 3
      + d.changed_signatures.length * 2 + d.changed_classification.length * 1
      + d.version_changes.length * 1 + 3
    ring

/-- Claim C8 (amended): the drift check exits 1 when the inventory file is
missing (the raised `FileNotFoundError` reaches the top-level handler) or the
sibling application repo is absent; with the inventory present it exits 1
exactly when `--ci-mode` was requested and drift was found, and otherwise
exits 0 — in particular a successful run that finds no drift exits 0 in every
mode. -/
theorem drift_exit_codes (inventory : Option Unit) (d : Drift) (ci : Bool) :
    (drift_main true none d ci = 1)
    ∧ (drift_main true (some ()) d true
        = if (calculate_drift_score d).requires_update then 1 else 0)
    ∧ (drift_main true (some ()) d false = 0)
    ∧ ((calculate_drift_score d).requires_update = false →
        drift_main true (some ()) d ci = 0)
    ∧ (drift_main false inventory d ci = 1) := by
  refine ⟨rfl, by simp [drift_main], rfl, ?_, by simp [drift_main]⟩
  intro h
  simp [drift_main, h]

/-- Claim C8, original form, refuted: without `--ci-mode`, a run whose drift
check finds problems still exits 0 (the claim asserts exit code 1 whenever
the check finds problems). -/
theorem drift_exit_code_counterexample :
    drift_main true (some ())
        { new_methods := [], deleted_methods := [⟨"old_method"⟩],
          changed_signatures := [], changed_classification := [], version_changes := [] }
        false = 0
    ∧ (calculate_drift_score
        { new_methods := [], deleted_methods := [⟨"old_method"⟩],
          changed_signatures := [], changed_classification := [], version_changes := [] }).requires_update = true
    ∧ (calculate_drift_score
        { new_methods := [], deleted_methods := [⟨"old_method"⟩],
          changed_signatures := [], changed_classification := [], version_changes := [] }).drift_score = 3 := by
  refine ⟨rfl, rfl, rfl⟩

/-- Witness for `drift_exit_codes` at a drift-free concrete input. -/
theorem drift_exit_codes_witness :
    drift_main true (some ())
      { new_methods := [], deleted_methods := [], changed_signatures := [],
        changed_classification := [], version_changes := [] } true = 0 :=
  (drift_exit_codes (some ())
      { new_methods := [], deleted_methods := [], changed_signatures := [],
        changed_classification := [], version_changes := [] } true).2.2.2.1 rfl

/-- Claim C9: a file that fails to parse is skipped and the walk continues —
for both tools, analyzing any file sequence produces exactly the state
produced by the parseable files alone, and the batch is a total function (no
parse failure aborts it). -/
theorem parse_failure_skips_file (digest : String → String) (ver : String)
    (files : List SrcFile) (st : TrackerState) (ca : AnalyzerState) :
    files.foldl (tracker_analyze_file digest ver) st
      = (files.filter SrcFile.parses).foldl (tracker_analyze_file digest ver) st
    ∧ files.foldl ca_analyze_file ca
      = (files.filter SrcFile.parses).foldl ca_analyze_file ca := by
  induction files generalizing st ca with
  | nil => exact ⟨rfl, rfl⟩
  | cons f rest ih =>
    cases f with
    | ok path m =>
      simpa [List.filter_cons, SrcFile.parses] using
        ih (tracker_analyze_file digest ver st (.ok path m)) (ca_analyze_file ca (.ok path m))
    | parseError path =>
      simpa [List.filter_cons, SrcFile.parses, tracker_analyze_file, ca_analyze_file] using
        ih st ca

/-! # Differ lemmas and claim theorems (C3, C2, C10) -/

theorem compare_models_added (p c : List ModelVersion) :
    (compare_with_previous p c).models_added
      = models_added_of (model_dict p) (model_dict c) := rfl

theorem compare_models_removed (p c : List ModelVersion) :
    (compare_with_previous p c).models_removed
      = models_removed_of (model_dict p) (model_dict c) := rfl

theorem compare_models_modified (p c : List ModelVersion) :
    (compare_with_previous p c).models_modified
      = (modifiedTriples (model_dict p) (model_dict c)).map (fun t => t.1) := rfl

theorem compare_breaking (p c : List ModelVersion) :
    (compare_with_previous p c).breaking_changes
      = (models_removed_of (model_dict p) (model_dict c)).map mk_model_removed
        ++ (modifiedTriples (model_dict p) (model_dict c)).flatMap
          (fun t => modified_breaking t.1 t.2.1 t.2.2) := rfl

theorem lookupD_self_of_mem_dictOf {α : Type} {key : α → String} {l : List α}
    {p : String × α} (h : p ∈ dictOf key l) : lookupD p.1 (dictOf key l) = some p.2 := by
  obtain ⟨k, v⟩ := p
  exact lookupD_dictOf_of_mem h

theorem lookupD_self_model_dict {l : List ModelVersion} {p : String × ModelVersion}
    (h : p ∈ model_dict l) : lookupD p.1 (model_dict l) = some p.2 :=
  lookupD_self_of_mem_dictOf h

theorem lookupD_self_field_dict {l : List FieldInfo} {p : String × FieldInfo}
    (h : p ∈ field_dict l) : lookupD p.1 (field_dict l) = some p.2 :=
  lookupD_self_of_mem_dictOf h

theorem modifiedTriples_intro {pd cd : List (String × ModelVersion)}
    {k : String} {v pm : ModelVersion} (hmem : (k, v) ∈ cd)
    (hl : lookupD k pd = some pm) (hne : v.hash ≠ pm.hash) :
    (k, v, pm) ∈ modifiedTriples pd cd := by
  refine List.mem_filterMap.mpr ⟨(k, v), hmem, ?_⟩
  simp [hl, hne]

theorem modifiedTriples_elim {pd cd : List (String × ModelVersion)}
    {t : String × ModelVersion × ModelVersion} (h : t ∈ modifiedTriples pd cd) :
    (t.1, t.2.1) ∈ cd ∧ lookupD t.1 pd = some t.2.2 ∧ t.2.1.hash ≠ t.2.2.hash := by
  obtain ⟨p, hp, hf⟩ := List.mem_filterMap.mp h
  rcases hl : lookupD p.1 pd with _ | pm <;> simp only [hl] at hf
  · cases hf
  · by_cases he : p.2.hash = pm.hash
    · rw [if_pos he] at hf; cases hf
    · rw [if_neg he] at hf
      injection hf with hf
      subst hf
      exact ⟨hp, hl, he⟩

/-- Claim C3: the differ identifies records by name only.  A name present
before and absent now is reported removed and yields the `model_removed`
high-severity breaking change; a name present in both snapshots is classified
modified exactly when the stored fingerprints differ, and is neither added
nor removed; diffing a snapshot against itself yields the empty ChangeSet. -/
theorem differ_identity_by_name (previous current : List ModelVersion) (name : String) :
    ((∀ pm, lookupD name (model_dict previous) = some pm →
        lookupD name (model_dict current) = none →
          name ∈ (compare_with_previous previous current).models_removed
          ∧ mk_model_removed name ∈ (compare_with_previous previous current).breaking_changes)
      ∧ (∀ pm cur, lookupD name (model_dict previous) = some pm →
          lookupD name (model_dict current) = some cur →
            ((name ∈ (compare_with_previous previous current).models_modified)
              ↔ cur.hash ≠ pm.hash)
            ∧ name ∉ (compare_with_previous previous current).models_removed
            ∧ name ∉ (compare_with_previous previous current).models_added))
    ∧ compare_with_previous current current
        = ChangeSet.mk [] [] [] [] [] [] [] := by
  constructor
  · constructor
    · intro pm hp hc
      have hmem : (name, pm) ∈ model_dict previous := lookupD_mem hp
      have hrem : name ∈ models_removed_of (model_dict previous) (model_dict current) := by
        refine List.mem_map.mpr ⟨(name, pm), List.mem_filter.mpr ⟨hmem, ?_⟩, rfl⟩
        simp [hc]
      refine ⟨by rw [compare_models_removed]; exact hrem, ?_⟩
      rw [compare_breaking]
      exact List.mem_append.mpr (Or.inl (List.mem_map.mpr ⟨name, hrem, rfl⟩))
    · intro pm cur hp hc
      refine ⟨?_, ?_, ?_⟩
      · rw [compare_models_modified]
        constructor
        · intro h
          obtain ⟨t, ht, h1⟩ := List.mem_map.mp h
          obtain ⟨htc, htl, htn⟩ := modifiedTriples_elim ht
          rw [h1] at htc htl
          have h2 : lookupD name (model_dict current) = some t.2.1 :=
            lookupD_self_model_dict htc
          rw [hc] at h2
          rw [hp] at htl
          injection h2 with h2
          injection htl with htl
          rw [h2, htl]
          exact htn
        · intro h
          exact List.mem_map.mpr ⟨(name, cur, pm),
            modifiedTriples_intro (lookupD_mem hc) hp h, rfl⟩
      · rw [compare_models_removed]
        intro h
        obtain ⟨q, hq, h1⟩ := List.mem_map.mp h
        have h2 := (List.mem_filter.mp hq).2
        rw [h1, hc] at h2
        cases h2
      · rw [compare_models_added]
        intro h
        obtain ⟨q, hq, h1⟩ := List.mem_map.mp h
        have h2 := (List.mem_filter.mp hq).2
        rw [h1, hp] at h2
        cases h2
  · have ha : models_added_of (model_dict current) (model_dict current) = [] := by
      rw [models_added_of, List.filter_eq_nil_iff.mpr, List.map_nil]
      intro p hp
      simp [lookupD_self_model_dict hp]
    have hr : models_removed_of (model_dict current) (model_dict current) = [] := by
      rw [models_removed_of, List.filter_eq_nil_iff.mpr, List.map_nil]
      intro p hp
      simp [lookupD_self_model_dict hp]
    have hm : modifiedTriples (model_dict current) (model_dict current) = [] := by
      rw [modifiedTriples, List.filterMap_eq_nil_iff.mpr]
      intro p hp
      simp [lookupD_self_model_dict hp]
    simp only [compare_with_previous, ha, hr, hm, List.map_nil, List.flatMap_nil,
      List.append_nil]

/-- Claim C2: for every record the differ classifies as modified, each removed
field yields `field_removed` (high), each type-changed field yields
`field_type_changed` (high, carrying old and new type text), each added
required field yields `required_field_added` (high), and the addition of a
non-required field contributes nothing to the breaking-change list; a field
is required exactly when it has no default initializer. -/
theorem breaking_change_completeness
    (previous current : List ModelVersion) (name : String) (cur prevM : ModelVersion)
    (hcur : lookupD name (model_dict current) = some cur)
    (hprev : lookupD name (model_dict previous) = some prevM)
    (hmod : cur.hash ≠ prevM.hash) :
    (∀ fname pf, lookupD fname (field_dict prevM.fields) = some pf →
        lookupD fname (field_dict cur.fields) = none →
        mk_field_removed name fname
          ∈ (compare_with_previous previous current).breaking_changes)
    ∧ (∀ fname pf cf, lookupD fname (field_dict prevM.fields) = some pf →
        lookupD fname (field_dict cur.fields) = some cf → cf.type ≠ pf.type →
        mk_field_type_changed name fname pf.type cf.type
          ∈ (compare_with_previous previous current).breaking_changes)
    ∧ (∀ fname cf, lookupD fname (field_dict cur.fields) = some cf →
        lookupD fname (field_dict prevM.fields) = none → cf.required = true →
        mk_required_field_added name fname
          ∈ (compare_with_previous previous current).breaking_changes)
    ∧ (∀ fname cf, lookupD fname (field_dict cur.fields) = some cf →
        lookupD fname (field_dict prevM.fields) = none → cf.required = false →
        mk_required_field_added name fname
          ∉ (compare_with_previous previous current).breaking_changes)
    ∧ (∀ n t d, (mk_field n t d).required = true ↔ d = none) := by
  have hT : (name, cur, prevM) ∈ modifiedTriples (model_dict previous) (model_dict current) :=
    modifiedTriples_intro (lookupD_mem hcur) hprev hmod
  have hmemBC : ∀ bc, bc ∈ modified_breaking name cur prevM →
      bc ∈ (compare_with_previous previous current).breaking_changes := by
    intro bc hbc
    rw [compare_breaking]
    exact List.mem_append.mpr (Or.inr (List.mem_flatMap.mpr ⟨(name, cur, prevM), hT, hbc⟩))
  refine ⟨?_, ?_, ?_, ?_, ?_⟩
  · intro fname pf hfp hfc
    refine hmemBC _ ?_
    rw [modified_breaking]
    refine List.mem_append.mpr (Or.inl (List.mem_append.mpr (Or.inr ?_)))
    refine List.mem_map.mpr ⟨(fname, pf), List.mem_filter.mpr ⟨lookupD_mem hfp, ?_⟩, rfl⟩
    simp [removed_fields, hfc]
  · intro fname pf cf hfp hfc hty
    refine hmemBC _ ?_
    rw [modified_breaking]
    refine List.mem_append.mpr (Or.inr ?_)
    refine List.mem_map.mpr ⟨(fname, pf.type, cf.type), ?_, rfl⟩
    refine List.mem_filterMap.mpr ⟨(fname, cf), lookupD_mem hfc, ?_⟩
    simp [hfp, hty]
  · intro fname cf hfc hfp hreq
    refine hmemBC _ ?_
    rw [modified_breaking]
    refine List.mem_append.mpr (Or.inl (List.mem_append.mpr (Or.inl ?_)))
    refine List.mem_map.mpr ⟨(fname, cf), List.mem_filter.mpr ⟨?_, by simpa using hreq⟩, rfl⟩
    exact List.mem_filter.mpr ⟨lookupD_mem hfc, by simp [hfp]⟩
  · intro fname cf hfc hfp hreq hmem
    rw [compare_breaking] at hmem
    rcases List.mem_append.mp hmem with h1 | h1
    · obtain ⟨n, _, h2⟩ := List.mem_map.mp h1
      have := congrArg BreakingChange.type h2
      simp [mk_model_removed, mk_required_field_added] at this
    · obtain ⟨t, ht, hbc⟩ := List.mem_flatMap.mp h1
      rw [modified_breaking] at hbc
      rcases List.mem_append.mp hbc with h2 | h2
      · rcases List.mem_append.mp h2 with h3 | h3
        · -- the `required_field_added` block of record t
          obtain ⟨q, hq, h4⟩ := List.mem_map.mp h3
          have htn : t.1 = name := by
            have := congrArg BreakingChange.model h4
            simpa [mk_required_field_added] using this
          have hqf : q.1 = fname := by
            have := congrArg BreakingChange.field h4
            simpa [mk_required_field_added] using this
          obtain ⟨htc, htl, _⟩ := modifiedTriples_elim ht
          rw [htn] at htc
          have h5 : lookupD name (model_dict current) = some t.2.1 :=
            lookupD_self_model_dict htc
          rw [hcur] at h5
          injection h5 with h5
          have hq1 := List.mem_filter.mp hq
          have hq2 := List.mem_filter.mp hq1.1
          have h6 : lookupD q.1 (field_dict t.2.1.fields) = some q.2 :=
            lookupD_self_field_dict hq2.1
          rw [hqf, ← h5, hfc] at h6
          injection h6 with h6
          have h7 : q.2.required = true := hq1.2
          rw [← h6, hreq] at h7
          cases h7
        · have := congrArg BreakingChange.type (List.mem_map.mp h3).choose_spec.2
          simp [mk_field_removed, mk_required_field_added] at this
      · have := congrArg BreakingChange.type (List.mem_map.mp h2).choose_spec.2
        simp [mk_field_type_changed, mk_required_field_added] at this
  · intro n t d
    simp [mk_field, Option.isNone_iff_eq_none]

/-- Claim C10: the differ is blind to everything the fingerprint omits.  If
two snapshots have the same record names and, name for name, agree on base
names and (field name, type text) pairs up to order — whatever their defaults,
required flags, docstrings, decorators, line numbers or file paths — and both
snapshots carry fingerprints computed by the fingerprinter, the ChangeSet is
empty. -/
theorem differ_blind_beyond_fingerprint (digest : String → String)
    (previous current : List ModelVersion)
    (hhp : ∀ m ∈ previous, m.hash = model_hash digest m.name m.base_classes m.fields)
    (hhc : ∀ m ∈ current, m.hash = model_hash digest m.name m.base_classes m.fields)
    (hkeys : ∀ n, (lookupD n (model_dict previous)).isSome
      = (lookupD n (model_dict current)).isSome)
    (hagree : ∀ n pm cm, lookupD n (model_dict previous) = some pm →
        lookupD n (model_dict current) = some cm →
        pm.base_classes.Perm cm.base_classes
        ∧ (pm.fields.map fun f => (f.name, f.type)).Perm
            (cm.fields.map fun f => (f.name, f.type))) :
    compare_with_previous previous current = ChangeSet.mk [] [] [] [] [] [] [] := by
  have ha : models_added_of (model_dict previous) (model_dict current) = [] := by
    rw [models_added_of, List.filter_eq_nil_iff.mpr, List.map_nil]
    intro p hp
    have h1 : (lookupD p.1 (model_dict current)).isSome = true := by
      rw [lookupD_self_model_dict hp]; rfl
    rw [← hkeys p.1] at h1
    cases hl : lookupD p.1 (model_dict previous) with
    | none => rw [hl] at h1; cases h1
    | some pm => simp [hl]
  have hr : models_removed_of (model_dict previous) (model_dict current) = [] := by
    rw [models_removed_of, List.filter_eq_nil_iff.mpr, List.map_nil]
    intro p hp
    have h1 : (lookupD p.1 (model_dict previous)).isSome = true := by
      rw [lookupD_self_model_dict hp]; rfl
    rw [hkeys p.1] at h1
    cases hl : lookupD p.1 (model_dict current) with
    | none => rw [hl] at h1; cases h1
    | some cm => simp [hl]
  have hm : modifiedTriples (model_dict previous) (model_dict current) = [] := by
    rw [modifiedTriples, List.filterMap_eq_nil_iff.mpr]
    intro p hp
    have h1 : (lookupD p.1 (model_dict current)).isSome = true := by
      rw [lookupD_self_model_dict hp]; rfl
    rw [← hkeys p.1] at h1
    obtain ⟨pm, hpm⟩ := Option.isSome_iff_exists.mp h1
    have hcm : lookupD p.1 (model_dict current) = some p.2 := lookupD_self_model_dict hp
    obtain ⟨hb, hf⟩ := hagree p.1 pm p.2 hpm hcm
    have hnp := mem_dictOf (lookupD_mem hpm)
    have hnc := mem_dictOf hp
    have hpm_name : pm.name = p.1 := hnp.1.symm
    have hcm_name : p.2.name = p.1 := hnc.1.symm
    have hhash : p.2.hash = pm.hash := by
      rw [hhc p.2 hnc.2, hhp pm hnp.2, hcm_name, hpm_name]
      exact model_hash_congr digest p.1 hb.symm hf.symm
    simp [hpm, hhash]
  simp only [compare_with_previous, ha, hr, hm, List.map_nil, List.flatMap_nil,
    List.append_nil]

/-! # Endpoint-loop lemmas (towards C4 and C6) -/

theorem lastOpt_eq_none {α : Type} {l : List α} : lastOpt l = none ↔ l = [] := by
  cases l with
  | nil => simp [lastOpt]
  | cons a l => simp [lastOpt_cons]

/-- A left fold whose step either overwrites the `proj` component with `g x`
or leaves it unchanged computes, on that component, the last assignment. -/
theorem foldl_overwrite {σ α β : Type} (step : σ → α → σ) (proj : σ → β) (g : α → Option β)
    (hstep : ∀ st x, proj (step st x) = (g x).getD (proj st)) :
    ∀ (l : List α) (st : σ), proj (l.foldl step st) = (lastOpt (l.filterMap g)).getD (proj st) := by
  intro l
  induction l with
  | nil => intro st; rfl
  | cons x xs ih =>
    intro st
    rw [List.foldl_cons, ih, hstep]
    cases hg : g x with
    | none => simp only [List.filterMap_cons, hg, Option.getD_none]
    | some b =>
      simp only [List.filterMap_cons, hg, Option.getD_some, lastOpt_cons]

theorem kw_step_http (st : EpState) (kw : Kw) : (kw_step st kw).http_method = st.http_method := by
  unfold kw_step
  split_ifs <;> cases kw.value <;> rfl

theorem kw_step_path (st : EpState) (kw : Kw) :
    (kw_step st kw).endpoint_path = st.endpoint_path := by
  unfold kw_step
  split_ifs <;> cases kw.value <;> rfl

theorem kw_fold_http (kws : List Kw) (st : EpState) :
    (kws.foldl kw_step st).http_method = st.http_method := by
  induction kws generalizing st with
  | nil => rfl
  | cons kw kws ih => rw [List.foldl_cons, ih, kw_step_http]

theorem kw_fold_path (kws : List Kw) (st : EpState) :
    (kws.foldl kw_step st).endpoint_path = st.endpoint_path := by
  induction kws generalizing st with
  | nil => rfl
  | cons kw kws ih => rw [List.foldl_cons, ih, kw_step_path]

theorem kw_step_tags (st : EpState) (kw : Kw) :
    (kw_step st kw).tags
      = ((if kw.arg = some "tags" then
            match kw.value with
            | .list elts => some (elts.filterMap constOf)
            | _ => none
          else none).getD st.tags) := by
  unfold kw_step
  split_ifs <;> cases kw.value <;> rfl

theorem kw_step_deprecated (st : EpState) (kw : Kw) :
    (kw_step st kw).deprecated
      = ((if kw.arg = some "deprecated" then
            match kw.value with
            | .const c => some c
            | _ => none
          else none).getD st.deprecated) := by
  unfold kw_step
  by_cases h1 : kw.arg = some "tags"
  · have h2 : ¬ kw.arg = some "deprecated" := by rw [h1]; simp
    rw [if_pos h1, if_neg h2]
    cases kw.value <;> rfl
  · rw [if_neg h1]
    by_cases h2 : kw.arg = some "deprecated"
    · rw [if_pos h2, if_pos h2]
      cases kw.value <;> rfl
    · rw [if_neg h2, if_neg h2]
      rfl

theorem kw_fold_tags (kws : List Kw) (st : EpState) :
    (kws.foldl kw_step st).tags
      = (lastOpt ((tags_lists kws).map fun elts => elts.filterMap constOf)).getD st.tags := by
  rw [foldl_overwrite kw_step EpState.tags
    (fun kw => if kw.arg = some "tags" then
        match kw.value with
        | .list elts => some (elts.filterMap constOf)
        | _ => none
      else none) kw_step_tags kws st]
  have h1 : kws.filterMap (fun kw => if kw.arg = some "tags" then
        match kw.value with
        | .list elts => some (elts.filterMap constOf)
        | _ => none
      else none)
      = (tags_lists kws).map fun elts => elts.filterMap constOf := by
    rw [tags_lists, List.map_filterMap]
    apply List.filterMap_congr
    intro kw _
    by_cases h : kw.arg = some "tags" <;> cases kw.value <;> simp [h]
  rw [h1]

theorem kw_fold_deprecated (kws : List Kw) (st : EpState) :
    (kws.foldl kw_step st).deprecated
      = (lastOpt (deprecated_consts kws)).getD st.deprecated := by
  rw [foldl_overwrite kw_step EpState.deprecated
    (fun kw => if kw.arg = some "deprecated" then
        match kw.value with
        | .const c => some c
        | _ => none
      else none) kw_step_deprecated kws st]
  congr 1

theorem decorator_step_http (st : EpState) (d : DecoratorExpr) :
    (decorator_step st d).http_method
      = ((if httpVerbs.contains (decorator_name d) then
            some (some (strUpper (decorator_name d)))
          else none).getD st.http_method) := by
  by_cases h : httpVerbs.contains (decorator_name d)
  · rw [if_pos h]
    cases d with
    | name id => unfold decorator_step; rw [if_pos h]; rfl
    | attr dotted => unfold decorator_step; rw [if_pos h]; rfl
    | other => unfold decorator_step; rw [if_pos h]; rfl
    | call fn args kws =>
      unfold decorator_step
      rw [if_pos h]
      show (kws.foldl kw_step _).http_method = _
      rw [kw_fold_http]
      cases args with
      | nil => rfl
      | cons a rest => cases a <;> rfl
  · rw [if_neg h]
    unfold decorator_step
    rw [if_neg h]
    rfl

theorem decorator_step_path (st : EpState) (d : DecoratorExpr) :
    (decorator_step st d).endpoint_path
      = ((if httpVerbs.contains (decorator_name d) then
            match d with
            | .call _ (.const c :: _) _ => some (some c)
            | _ => none
          else none).getD st.endpoint_path) := by
  by_cases h : httpVerbs.contains (decorator_name d)
  · rw [if_pos h]
    cases d with
    | name id => unfold decorator_step; rw [if_pos h]; rfl
    | attr dotted => unfold decorator_step; rw [if_pos h]; rfl
    | other => unfold decorator_step; rw [if_pos h]; rfl
    | call fn args kws =>
      unfold decorator_step
      rw [if_pos h]
      show (kws.foldl kw_step _).endpoint_path = _
      rw [kw_fold_path]
      cases args with
      | nil => rfl
      | cons a rest => cases a <;> rfl
  · rw [if_neg h]
    unfold decorator_step
    rw [if_neg h]
    rfl

theorem decorator_step_tags (st : EpState) (d : DecoratorExpr) :
    (decorator_step st d).tags
      = ((if httpVerbs.contains (decorator_name d) then
            match d with
            | .call _ _ kws => (lastOpt (tags_lists kws)).map fun elts => elts.filterMap constOf
            | _ => none
          else none).getD st.tags) := by
  by_cases h : httpVerbs.contains (decorator_name d)
  · rw [if_pos h]
    cases d with
    | name id => unfold decorator_step; rw [if_pos h]; rfl
    | attr dotted => unfold decorator_step; rw [if_pos h]; rfl
    | other => unfold decorator_step; rw [if_pos h]; rfl
    | call fn args kws =>
      unfold decorator_step
      rw [if_pos h]
      show (kws.foldl kw_step _).tags = _
      rw [kw_fold_tags, lastOpt_map]
      cases args with
      | nil => rfl
      | cons a rest => cases a <;> rfl
  · rw [if_neg h]
    unfold decorator_step
    rw [if_neg h]
    rfl

theorem decorator_step_deprecated (st : EpState) (d : DecoratorExpr) :
    (decorator_step st d).deprecated
      = ((if httpVerbs.contains (decorator_name d) then
            match d with
            | .call _ _ kws => lastOpt (deprecated_consts kws)
            | _ => none
          else none).getD st.deprecated) := by
  by_cases h : httpVerbs.contains (decorator_name d)
  · rw [if_pos h]
    cases d with
    | name id => unfold decorator_step; rw [if_pos h]; rfl
    | attr dotted => unfold decorator_step; rw [if_pos h]; rfl
    | other => unfold decorator_step; rw [if_pos h]; rfl
    | call fn args kws =>
      unfold decorator_step
      rw [if_pos h]
      show (kws.foldl kw_step _).deprecated = _
      rw [kw_fold_deprecated]
      cases args with
      | nil => rfl
      | cons a rest => cases a <;> rfl
  · rw [if_neg h]
    unfold decorator_step
    rw [if_neg h]
    rfl

theorem ep_fold_http (decs : List DecoratorExpr) (st : EpState) :
    (decs.foldl decorator_step st).http_method
      = match lastOpt (matched_verbs decs) with
        | some v => some (strUpper v)
        | none => st.http_method := by
  rw [foldl_overwrite decorator_step EpState.http_method
    (fun d => if httpVerbs.contains (decorator_name d) then
        some (some (strUpper (decorator_name d)))
      else none) decorator_step_http decs st]
  have h1 : decs.filterMap (fun d => if httpVerbs.contains (decorator_name d) then
        some (some (strUpper (decorator_name d)))
      else none)
      = (matched_verbs decs).map (fun v => some (strUpper v)) := by
    rw [matched_verbs, List.map_filterMap]
    apply List.filterMap_congr
    intro d _
    by_cases h : decorator_name d ∈ httpVerbs <;> simp [h]
  rw [h1, lastOpt_map]
  cases lastOpt (matched_verbs decs) <;> rfl

theorem ep_fold_path (decs : List DecoratorExpr) (st : EpState) :
    (decs.foldl decorator_step st).endpoint_path
      = match lastOpt (path_consts decs) with
        | some c => some c
        | none => st.endpoint_path := by
  rw [foldl_overwrite decorator_step EpState.endpoint_path
    (fun d => if httpVerbs.contains (decorator_name d) then
        match d with
        | .call _ (.const c :: _) _ => some (some c)
        | _ => none
      else none) decorator_step_path decs st]
  have h1 : decs.filterMap (fun d => if httpVerbs.contains (decorator_name d) then
        match d with
        | .call _ (.const c :: _) _ => some (some c)
        | _ => none
      else none)
      = (path_consts decs).map some := by
    rw [path_consts, List.map_filterMap]
    apply List.filterMap_congr
    intro d _
    by_cases h : decorator_name d ∈ httpVerbs
    · cases d with
      | name id => simp [h]
      | attr dotted => simp [h]
      | other => simp [h]
      | call fn args kws =>
        cases args with
        | nil => simp [h]
        | cons a rest => cases a <;> simp [h]
    · cases d with
      | name id => simp [h]
      | attr dotted => simp [h]
      | other => simp [h]
      | call fn args kws =>
        cases args with
        | nil => simp [h]
        | cons a rest => cases a <;> simp [h]
  rw [h1, lastOpt_map]
  cases lastOpt (path_consts decs) <;> rfl

theorem ep_fold_tags (decs : List DecoratorExpr) (st : EpState) :
    (decs.foldl decorator_step st).tags
      = (lastOpt (tags_assignments decs)).getD st.tags := by
  rw [foldl_overwrite decorator_step EpState.tags
    (fun d => if httpVerbs.contains (decorator_name d) then
        match d with
        | .call _ _ kws => (lastOpt (tags_lists kws)).map fun elts => elts.filterMap constOf
        | _ => none
      else none) decorator_step_tags decs st]
  rfl

theorem ep_fold_deprecated (decs : List DecoratorExpr) (st : EpState) :
    (decs.foldl decorator_step st).deprecated
      = (lastOpt (deprecated_assignments decs)).getD st.deprecated := by
  rw [foldl_overwrite decorator_step EpState.deprecated
    (fun d => if httpVerbs.contains (decorator_name d) then
        match d with
        | .call _ _ kws => lastOpt (deprecated_consts kws)
        | _ => none
      else none) decorator_step_deprecated decs st]
  rfl

theorem request_fold (model_names : List String) (args : List Arg) :
    args.foldl (fun acc arg =>
      match arg.annot with
      | none => acc
      | some type_str =>
        match model_names.find? (fun mn => containsSub type_str mn) with
        | some mn => some mn
        | none => acc) (none : Option String)
      = lastOpt (request_matches model_names args) := by
  have h := foldl_overwrite (fun (acc : Option String) (arg : Arg) =>
      match arg.annot with
      | none => acc
      | some type_str =>
        match model_names.find? (fun mn => containsSub type_str mn) with
        | some mn => some mn
        | none => acc)
    (id : Option String → Option String)
    (fun arg => (match arg.annot with
      | none => none
      | some type_str => model_names.find? fun mn => containsSub type_str mn).map some)
    ?hstep args none
  case hstep =>
    intro acc arg
    cases harg : arg.annot with
    | none => simp [harg]
    | some ts =>
      simp only [harg, id_eq]
      cases hf : model_names.find? (fun mn => containsSub ts mn) <;> simp [hf]
  simp only [id_eq] at h
  rw [h]
  have h1 : args.filterMap (fun arg => (match arg.annot with
      | none => none
      | some type_str => model_names.find? fun mn => containsSub type_str mn).map some)
      = (request_matches model_names args).map some := by
    rw [request_matches, List.map_filterMap]
  rw [h1, lastOpt_map]
  cases lastOpt (request_matches model_names args) <;> rfl

/-- The endpoint parser, written as one closed-form equation: the function is
recognized iff a verb-named decorator exists; the last matching decorator
provides the method, the last literal first positional argument the path, the
last literal `tags=` / `deprecated=` keyword of a matching decorator the tags
and flag; the last parameter with a known-model match the request model. -/
theorem parse_endpoint_eq (model_names : List String) (ver fp : String)
    (node : FunctionDef) :
    parse_endpoint model_names ver fp node
      = match lastOpt (matched_verbs node.decorator_list) with
        | none => none
        | some v => some
          { path := spec_path node.decorator_list node.name
            method := strUpper v
            function_name := node.name
            file_path := fp
            line_number := node.lineno
            request_model := lastOpt (request_matches model_names node.args)
            response_model := match node.returns with
              | none => none
              | some type_str => model_names.find? fun mn => containsSub type_str mn
            tags := (lastOpt (tags_assignments node.decorator_list)).getD []
            summary := (match node.docstring with
              | none => (none, none)
              | some ds =>
                let p := splitOnceNl ds.toList
                (some (List.asString p.1).trim,
                  p.2.map fun r => (List.asString r).trim)).1
            description := (match node.docstring with
              | none => (none, none)
              | some ds =>
                let p := splitOnceNl ds.toList
                (some (List.asString p.1).trim,
                  p.2.map fun r => (List.asString r).trim)).2
            deprecated := (lastOpt (deprecated_assignments node.decorator_list)).getD
              (PyConst.bool false)
            version := ver } := by
  simp only [parse_endpoint]
  rw [ep_fold_http]
  cases hv : lastOpt (matched_verbs node.decorator_list) with
  | none => rfl
  | some v =>
    simp only
    rw [ep_fold_path, ep_fold_tags, ep_fold_deprecated, request_fold]
    cases hp : lastOpt (path_consts node.decorator_list) <;>
      simp [spec_path, hp]

/-- Claim C4 (amended): an endpoint is recognized exactly when some
decorator's name, as written (matching is case-sensitive), is one of
get/post/put/patch/delete/options/head; the method is the uppercased name of
the last matching decorator; the path comes from the last matching decorator
whose first positional argument is a literal constant — that constant itself
when truthy (it need not be a string), else the synthesized `/<function-name>`
default; the tags are the constant elements of the last literal-list `tags`
keyword of a matching decorator, else empty; the deprecated flag is the last
literal-constant `deprecated` keyword of a matching decorator, else false. -/
theorem endpoint_decorator_semantics (model_names : List String) (ver fp : String)
    (node : FunctionDef) :
    ((parse_endpoint model_names ver fp node).isSome
        = node.decorator_list.any fun d => httpVerbs.contains (decorator_name d))
    ∧ (∀ ep, parse_endpoint model_names ver fp node = some ep →
        ∃ v, lastOpt (matched_verbs node.decorator_list) = some v
          ∧ ep.method = strUpper v
          ∧ ep.path = spec_path node.decorator_list node.name
          ∧ ep.tags = (lastOpt (tags_assignments node.decorator_list)).getD []
          ∧ ep.deprecated = (lastOpt (deprecated_assignments node.decorator_list)).getD
              (PyConst.bool false)) := by
  have heq := parse_endpoint_eq model_names ver fp node
  constructor
  · rw [heq]
    cases hv : lastOpt (matched_verbs node.decorator_list) with
    | none =>
      simp only [Option.isSome_none]
      have h2 : matched_verbs node.decorator_list = [] := lastOpt_eq_none.mp hv
      rw [matched_verbs] at h2
      have h3 := List.filterMap_eq_nil_iff.mp h2
      symm
      rw [List.any_eq_false]
      intro d hd hc
      have h4 := h3 d hd
      rw [if_pos hc] at h4
      cases h4
    | some v =>
      simp only [Option.isSome_some]
      have hne : matched_verbs node.decorator_list ≠ [] := by
        intro h0
        rw [lastOpt_eq_none.mpr h0] at hv
        cases hv
      obtain ⟨x, hx⟩ := List.exists_mem_of_ne_nil _ hne
      rw [matched_verbs] at hx
      obtain ⟨d, hd, hfd⟩ := List.mem_filterMap.mp hx
      symm
      rw [List.any_eq_true]
      refine ⟨d, hd, ?_⟩
      by_cases hc : httpVerbs.contains (decorator_name d) = true
      · exact hc
      · rw [if_neg hc] at hfd
        cases hfd
  · intro ep hep
    rw [heq] at hep
    cases hv : lastOpt (matched_verbs node.decorator_list) with
    | none => rw [hv] at hep; cases hep
    | some v =>
      rw [hv] at hep
      injection hep with hep
      subst hep
      exact ⟨v, rfl, rfl, rfl, rfl, rfl⟩

/-- Claim C6 (amended): the request model is obtained by scanning each
annotated parameter in order for the first currently-known record name
occurring as a substring of its annotation text, with each matching parameter
overwriting the previous result (so the last matching parameter wins); the
response model is the first known record name occurring in the return type
text; each slot carries at most one model name. -/
theorem endpoint_model_inference (model_names : List String) (ver fp : String)
    (node : FunctionDef) (ep : EndpointVersion)
    (hep : parse_endpoint model_names ver fp node = some ep) :
    ep.request_model = lastOpt (request_matches model_names node.args)
    ∧ ep.response_model = (match node.returns with
        | none => none
        | some type_str => model_names.find? fun mn => containsSub type_str mn) := by
  rw [parse_endpoint_eq] at hep
  cases hv : lastOpt (matched_verbs node.decorator_list) <;> rw [hv] at hep
  · cases hep
  · injection hep with hep
    subst hep
    exact ⟨rfl, rfl⟩

/-! # Witnesses and counterexamples on concrete inputs -/

/-- Witness for `fingerprint_shape_determined`: record `Foo` with a required
field `a : str` and an optional field `b : int = 0` fingerprints identically
whichever field is declared first, and the fingerprint has 8 characters. -/
theorem fingerprint_witness :
    (model_hash (fun _ => "0123456789abcdef") "Foo" []
        [mk_field "a" "str" none, mk_field "b" "int" (some "0")]).length = 8
    ∧ model_hash (fun _ => "0123456789abcdef") "Foo" []
        [mk_field "a" "str" none, mk_field "b" "int" (some "0")]
      = model_hash (fun _ => "0123456789abcdef") "Foo" []
        [mk_field "b" "int" (some "0"), mk_field "a" "str" none] :=
  fingerprint_shape_determined (fun _ => "0123456789abcdef")
    (fun _ => by show (8 : Nat) ≤ ("0123456789abcdef" : String).length; decide)
    "Foo" [] [] _ _ (by decide) (by decide)

/-- Witness for `breaking_change_completeness` on a concrete modified record. -/
theorem breaking_change_completeness_witness :
    mk_field_removed "M" "gone" ∈ (compare_with_previous c2_prev c2_cur).breaking_changes
    ∧ mk_field_type_changed "M" "a" "int" "str"
        ∈ (compare_with_previous c2_prev c2_cur).breaking_changes
    ∧ mk_required_field_added "M" "newreq"
        ∈ (compare_with_previous c2_prev c2_cur).breaking_changes
    ∧ mk_required_field_added "M" "newopt"
        ∉ (compare_with_previous c2_prev c2_cur).breaking_changes
    ∧ ((mk_field "newopt" "int" (some "0")).required = true
        ↔ (some "0" : Option String) = none) := by
  have T := breaking_change_completeness c2_prev c2_cur "M"
    (exModel "M" "h2" [mk_field "a" "str" none, mk_field "newreq" "int" none,
      mk_field "newopt" "int" (some "0")])
    (exModel "M" "h1" [mk_field "a" "int" none, mk_field "gone" "str" none])
    (by decide) (by decide) (by decide)
  exact ⟨T.1 "gone" (mk_field "gone" "str" none) (by decide) (by decide),
    T.2.1 "a" (mk_field "a" "int" none) (mk_field "a" "str" none)
      (by decide) (by decide) (by decide),
    T.2.2.1 "newreq" (mk_field "newreq" "int" none) (by decide) (by decide) (by decide),
    T.2.2.2.1 "newopt" (mk_field "newopt" "int" (some "0"))
      (by decide) (by decide) (by decide),
    T.2.2.2.2 "newopt" "int" (some "0")⟩

/-- Witness for `differ_identity_by_name` on concrete snapshots. -/
theorem differ_identity_witness :
    ("B" ∈ (compare_with_previous c3_prev c3_cur).models_removed
      ∧ mk_model_removed "B" ∈ (compare_with_previous c3_prev c3_cur).breaking_changes)
    ∧ "A" ∉ (compare_with_previous c3_prev c3_cur).models_added
    ∧ compare_with_previous c3_cur c3_cur = ChangeSet.mk [] [] [] [] [] [] [] :=
  ⟨(differ_identity_by_name c3_prev c3_cur "B").1.1 (exModel "B" "h1" [])
      (by decide) (by decide),
    ((differ_identity_by_name c3_prev c3_cur "A").1.2 (exModel "A" "h1" [])
      (exModel "A" "h2" []) (by decide) (by decide)).2.2,
    (differ_identity_by_name c3_cur c3_cur "A").2⟩

/-- Claim C4, original form, refuted at concrete inputs: (i) a decorator named
`GET` — whose lower-cased name is in the verb set — is not recognized (matching
is case-sensitive); (ii) an empty-string literal path argument is dropped in
favour of the synthesized default; (iii) a literal-string second positional
argument is ignored; (iv) a non-string first literal becomes the path;
(v) a non-boolean `deprecated=` literal is stored as the flag. -/
theorem endpoint_claim_counterexample :
    (parse_endpoint [] "1.0.0" "api.py" c4_fn_upper = none
      ∧ httpVerbs.contains (strLower (decorator_name (DecoratorExpr.name "GET"))) = true)
    ∧ (parse_endpoint [] "1.0.0" "api.py" c4_fn_empty_path).map EndpointVersion.path
        = some (.str "/root")
    ∧ (parse_endpoint [] "1.0.0" "api.py" c4_fn_second_arg).map EndpointVersion.path
        = some (.str "/items")
    ∧ (parse_endpoint [] "1.0.0" "api.py" c4_fn_int_path).map EndpointVersion.path
        = some (.int 5)
    ∧ (parse_endpoint [] "1.0.0" "api.py" c4_fn_depr_str).map EndpointVersion.deprecated
        = some (.str "yes") :=
  ⟨⟨rfl, rfl⟩, rfl, rfl, rfl, rfl⟩

/-- Witness for `endpoint_decorator_semantics`: `@get("/items/{id}")` with no
keyword arguments yields method GET, the literal path, empty tags and a false
deprecated flag. -/
theorem endpoint_decorator_semantics_witness :
    ∃ ep, parse_endpoint [] "1.0.0" "api.py" c4_fn_ok = some ep
      ∧ ep.method = "GET" ∧ ep.path = PyConst.str "/items/\x7bid\x7d"
      ∧ ep.tags = ([] : List PyConst) ∧ ep.deprecated = PyConst.bool false := by
  obtain ⟨v, hv, hm, hp, ht, hd⟩ :=
    (endpoint_decorator_semantics [] "1.0.0" "api.py" c4_fn_ok).2 _ rfl
  have hv2 : v = "get" := by
    have h0 : lastOpt (matched_verbs c4_fn_ok.decorator_list) = some "get" := rfl
    rw [h0] at hv
    exact (Option.some.inj hv).symm
  exact ⟨_, rfl, by rw [hm, hv2]; rfl, by rw [hp]; rfl, by rw [ht]; rfl, by rw [hd]; rfl⟩

/-- Witness for `record_recognition`: a class with a `BaseModel` base and a
`dataclass` decorator is recognized with both flags set; a class with neither
is not extracted. -/
theorem record_recognition_witness :
    (∃ m, parse_model (fun s => s) "m.py" c5_both = some m
       ∧ m.is_pydantic = true ∧ m.is_dc = true)
    ∧ (parse_model (fun s => s) "m.py" c5_neither).isSome = false := by
  constructor
  · have h2 := (record_recognition (fun s => s) "m.py" c5_both).2 _ rfl
    exact ⟨_, rfl, h2.1.trans rfl, h2.2.trans rfl⟩
  · exact ((record_recognition (fun s => s) "m.py" c5_neither).1).trans rfl

/-- Claim C6, original form, refuted: with known records `A` then `B`, a route
whose first parameter matches `A` and whose second matches `B` reports request
model `B` — the last matching parameter overwrites, "first match wins" fails
across parameters (the conjunct on `find?` shows the first parameter does
match `A`). -/
theorem model_inference_counterexample :
    (parse_endpoint ["A", "B"] "1.0.0" "api.py" c6_fn).map EndpointVersion.request_model
      = some (some "B")
    ∧ (["A", "B"].find? fun mn => containsSub "A" mn) = some "A"
    ∧ ("B" : String) ≠ "A" :=
  ⟨rfl, rfl, by decide⟩

/-- Witness for `endpoint_model_inference` at the same concrete route. -/
theorem endpoint_model_inference_witness :
    ∃ ep, parse_endpoint ["A", "B"] "1.0.0" "api.py" c6_fn = some ep
      ∧ ep.request_model = some "B" ∧ ep.response_model = some "B" := by
  obtain ⟨h1, h2⟩ := endpoint_model_inference ["A", "B"] "1.0.0" "api.py" c6_fn _ rfl
  exact ⟨_, rfl, h1.trans rfl, h2.trans rfl⟩

/-- Witness for `differ_blind_beyond_fingerprint`: adding only a default
initializer to a field (plus docstring/path/line changes) produces an empty
ChangeSet. -/
theorem differ_blind_witness :
    compare_with_previous c10_prev c10_cur = ChangeSet.mk [] [] [] [] [] [] [] := by
  refine differ_blind_beyond_fingerprint c10_digest c10_prev c10_cur ?_ ?_ ?_ ?_
  · intro m hm
    simp only [c10_prev, List.mem_singleton] at hm
    subst hm
    rfl
  · intro m hm
    simp only [c10_cur, List.mem_singleton] at hm
    subst hm
    rfl
  · intro n
    by_cases h : n = "A" <;>
      simp [c10_prev, c10_cur, model_dict, dictOf, dictInsert, lookupD, h]
  · intro n pm cm h1 h2
    by_cases h : n = "A"
    · subst h
      simp only [c10_prev, c10_cur, model_dict, dictOf, dictInsert, lookupD] at h1 h2
      simp at h1 h2
      subst h1
      subst h2
      exact ⟨List.Perm.refl _, by decide⟩
    · simp [c10_prev, model_dict, dictOf, dictInsert, lookupD, h] at h1

end TinyToolset
